import Mathlib

/-!
Shallow embedding of `src/spinner.py` (class `Spinner`, method `spin`).

The Python program forks a child, execs a command in it, and supervises it
from the parent: it prints a wait message, hides the terminal cursor,
installs handlers for SIGINT/SIGTERM/SIGQUIT, then polls the child in a
loop (non-blocking `waitpid` with `WNOHANG`), animating a spinner glyph,
enforcing an optional timeout (SIGTERM, 1 s grace, SIGKILL), and draining
the child with a blocking wait if a signal was forwarded.  It finally
restores the three handlers and shows the cursor again.

The embedding models one call of `spin` as a deterministic function of the
environment: a list of per-iteration records saying which signal (if any)
was delivered before that iteration's interruption check, what the
non-blocking wait returned, and how much time had elapsed at the timeout
check.  All observable side effects (prints, cursor escapes, kill attempts,
waits, handler installation and restoration) are recorded in an event
trace.  Signal delivery at points inside an iteration body is modelled as
delivery before the next iteration's interruption check, which is where the
loop observes it; the handler's own effects (flag update, forwarded kill)
happen at that modelled delivery point.
-/

namespace SpinnerPy

/-- Signal numbers on Linux, as imported by the source from the `signal`
module. -/
def SIGINT : Nat := 2

/-- SIGQUIT signal number. -/
def SIGQUIT : Nat := 3

/-- SIGKILL signal number. -/
def SIGKILL : Nat := 9

/-- SIGTERM signal number. -/
def SIGTERM : Nat := 15

/-- The `command` field of the dataclass.  Its annotation is `list[str]`,
but the code at lines 45–47 explicitly handles a plain string at runtime
(`[self.command] if isinstance(self.command, str) else self.command`), so
the model makes the field a sum of the two cases. -/
inductive CommandField where
  | ofString (s : String)
  | ofList (l : List String)
deriving DecidableEq, Repr

/-- The frozen dataclass `Spinner(command, wait_text=None, max_duration=None)`.
Durations are modelled in whole seconds (`max_duration: int | None` in the
source). -/
structure Spinner where
  command : CommandField
  wait_text : Option String
  max_duration : Option Nat
deriving DecidableEq, Repr

/-- Python `str` of the command as interpolated into the default wait text.
For a list, `str(list)` shows each element in quotes; for a string it is the
string itself.  The quote character is written as an escape to keep the
model self-contained. -/
def strOfCommand : CommandField → String
  | CommandField.ofString s => s
  | CommandField.ofList l =>
      "[" ++ String.intercalate ", " (l.map (fun x => "\x27" ++ x ++ "\x27")) ++ "]"

/-- `__post_init__` (lines 29–35): if `wait_text` is `None` it is replaced by
`f"Please wait, running command: {self.command}"`. -/
def effectiveWaitText (sp : Spinner) : String :=
  match sp.wait_text with
  | some t => t
  | none => "Please wait, running command: " ++ strOfCommand sp.command

/-- Lines 45–47: `[self.command] if isinstance(self.command, str) else self.command`. -/
def normalizeArgv : CommandField → List String
  | CommandField.ofString s => [s]
  | CommandField.ofList l => l

/-- The executable and argument vector handed to `execvp(argv[0], argv)`
(line 56).  `argv[0]` on an empty list raises in Python, modelled as `none`. -/
def execTarget (cf : CommandField) : Option (String × List String) :=
  match normalizeArgv cf with
  | [] => none
  | x :: rest => some (x, x :: rest)

/-- Outcome of the `execvp` call in the child (line 56): either the process
image was replaced (the call never returns), or it raised an exception whose
rendering is `msg`. -/
inductive ExecOutcome where
  | replaced
  | failedWith (msg : String)
deriving DecidableEq, Repr

/-- What the forked child does (lines 53–59): it tries `execvp`; on success
the child never returns to Python (`none`); on any exception it prints
`exec failed: ...` to stderr and terminates immediately with `_exit(127)`.
Result: `none` if the image was replaced, else the `_exit` code paired with
the stderr line. -/
def childRun (ex : ExecOutcome) : Option (Nat × String) :=
  match ex with
  | ExecOutcome.replaced => none
  | ExecOutcome.failedWith m => some (127, "\nexec failed: " ++ m)

/-- The value a handler slot is set to by a `signal(...)` call made inside
`spin`: either the supervisor's own `sig_handler` closure, or the previous
handler for that signal as saved at lines 80–82 and restored at
lines 147–149. -/
inductive HandlerVal where
  | spinHandler
  | previous (sig : Nat)
deriving DecidableEq, Repr

/-- Observable events of one `spin` call, in program order. -/
inductive Event where
  | printWaitText (s : String)
  | hideCursor
  | showCursor
  | setHandler (sig : Nat) (h : HandlerVal)
  | glyph (c : Char)
  | backspace
  | sleepTenths (n : Nat)
  | killSig (sig : Nat)
  | waitNonblock (res : Option Nat)
  | waitBlock (status : Nat)
  | observeInterrupt
  | timeoutCheck (elapsed : Nat)
  | errLine (s : String)
  | newline
deriving DecidableEq, Repr

/-- The `nonlocal` supervisor state shared between `sig_handler` and the
polling loop (lines 65–66): `interrupted` and `signal_received`. -/
structure SupState where
  interrupted : Bool
  signal_received : Option Nat
deriving DecidableEq, Repr

/-- `sig_handler` (lines 68–77): record the interruption and the signal
number, and forward the same signal to the child with `kill(pid, signum)`
(a `ProcessLookupError` from a child that already exited is swallowed, so
the forwarding is an attempt event in the trace either way). -/
def sig_handler (_st : SupState) (signum : Nat) : SupState × List Event :=
  (⟨true, some signum⟩, [Event.killSig signum])

/-- Environment of one loop iteration: which signal, if any, was delivered
before the `if interrupted` check; the status a blocking `waitpid` would
return on the interrupted path; the result of the `WNOHANG` wait (`none`
means the child is still running, `some status` means it was reaped with
that wait status); the elapsed whole seconds at the timeout check; the
result of the `WNOHANG` re-check after SIGTERM and the 1 s grace sleep; and
the status of the final blocking wait after SIGKILL. -/
structure Iter where
  sigBefore : Option Nat
  blockStatus : Nat
  poll : Option Nat
  elapsed : Nat
  gracePoll : Option Nat
  killWaitStatus : Nat
deriving DecidableEq, Repr

/-- `os.WIFEXITED(status)`: the low seven bits are zero. -/
def WIFEXITED (status : Nat) : Bool := status % 128 == 0

/-- `os.WEXITSTATUS(status)`: bits 8–15. -/
def WEXITSTATUS (status : Nat) : Nat := (status / 256) % 256

/-- `os.WTERMSIG(status)`: the low seven bits. -/
def WTERMSIG (status : Nat) : Nat := status % 128

/-- `os.WIFSIGNALED(status)`: the terminating signal field is neither 0
(normal exit) nor 0x7f (stopped).  This is glibc's
`((signed char) (((status) & 0x7f) + 1) >> 1) > 0` written out on the
0–127 range of the field. -/
def WIFSIGNALED (status : Nat) : Bool :=
  status % 128 != 0 && status % 128 != 127

/-- The wait status the kernel reports for a child that exited normally
with code `c` (0–255): the code in bits 8–15, low bits zero. -/
def exitStatusOf (c : Nat) : Nat := 256 * (c % 256)

/-- Lines 137–143, the translation applied when the loop broke because the
non-blocking wait reaped the child. -/
def statusToExit (status : Nat) : Nat :=
  if WIFEXITED status then WEXITSTATUS status
  else if WIFSIGNALED status then 128 + WTERMSIG status
  else 128

/-- Lines 94–102: the name printed for the received signal
(`signal_names.get(signal_received, f"signal {signal_received}")`). -/
def signalName (n : Nat) : String :=
  if n = SIGINT then "SIGINT"
  else if n = SIGTERM then "SIGTERM"
  else if n = SIGQUIT then "SIGQUIT"
  else "signal " ++ toString n

/-- The spinner string `"-\\|/"` (line 62) as a list of glyphs. -/
def spinnerGlyphs : List Char := ['-', '\\', '|', '/']

/-- Result of running the polling loop on a finite environment: either the
`return` value of the `try` block together with the events the loop
emitted, or the environment list was exhausted with the loop still going. -/
inductive LoopResult where
  | done (code : Nat) (tr : List Event)
  | fuelOut (tr : List Event)
deriving DecidableEq, Repr

/-- Prefix a list of events onto a loop result's trace. -/
def LoopResult.prepend (p : List Event) : LoopResult → LoopResult
  | LoopResult.done c tr => LoopResult.done c (p ++ tr)
  | LoopResult.fuelOut tr => LoopResult.fuelOut (p ++ tr)

/-- Effect of asynchronous signal delivery on the supervisor state: if a
signal was delivered, `sig_handler` has run by the time the loop body reads
the flags. -/
def deliver (st : SupState) : Option Nat → SupState × List Event
  | none => (st, [])
  | some n => sig_handler st n

/-- The `while True` polling loop (lines 85–134) together with the status
translation at lines 137–143.  `st` is the shared supervisor state, `i` the
spinner index.  Each `Iter` drives one iteration; `sig_handler` runs first
when a signal is delivered.  The branches, in source order: the
interruption check (lines 87–109), the non-blocking wait and `break`
(lines 111–113 and 137–143), the timeout escalation (lines 115–129), and
the animation step (lines 131–134). -/
def spinLoop (sp : Spinner) : List Iter → SupState → Nat → LoopResult
  | [], _, _ => LoopResult.fuelOut []
  | it :: rest, st, i =>
    if (deliver st it.sigBefore).1.interrupted then
      match (deliver st it.sigBefore).1.signal_received with
      | some s =>
          LoopResult.done (128 + s)
            ((deliver st it.sigBefore).2 ++ [Event.observeInterrupt, Event.sleepTenths 1,
              Event.waitBlock it.blockStatus,
              Event.errLine ("\nInterrupted by " ++ signalName s ++ ".")])
      | none =>
          LoopResult.done 130
            ((deliver st it.sigBefore).2 ++ [Event.observeInterrupt, Event.sleepTenths 1,
              Event.waitBlock it.blockStatus,
              Event.errLine "\nInterrupted."])
    else
      match it.poll with
      | some status =>
          LoopResult.done (statusToExit status)
            ((deliver st it.sigBefore).2 ++ [Event.waitNonblock (some status)])
      | none =>
        match sp.max_duration with
        | some maxd =>
          if maxd ≤ it.elapsed then
            let evs := (deliver st it.sigBefore).2 ++ [Event.waitNonblock none,
              Event.timeoutCheck it.elapsed,
              Event.errLine "\nProcess timed out.",
              Event.killSig SIGTERM, Event.sleepTenths 10]
            match it.gracePoll with
            | some s2 =>
                LoopResult.done 124 (evs ++ [Event.waitNonblock (some s2)])
            | none =>
                LoopResult.done 124 (evs ++ [Event.waitNonblock none,
                  Event.killSig SIGKILL, Event.waitBlock it.killWaitStatus])
          else
            LoopResult.prepend
              ((deliver st it.sigBefore).2 ++ [Event.waitNonblock none, Event.timeoutCheck it.elapsed,
                Event.glyph (spinnerGlyphs.getD (i % 4) ' '),
                Event.sleepTenths 2, Event.backspace])
              (spinLoop sp rest (deliver st it.sigBefore).1 (i + 1))
        | none =>
            LoopResult.prepend
              ((deliver st it.sigBefore).2 ++ [Event.waitNonblock none,
                Event.glyph (spinnerGlyphs.getD (i % 4) ' '),
                Event.sleepTenths 2, Event.backspace])
              (spinLoop sp rest (deliver st it.sigBefore).1 (i + 1))

/-- Lines 49–50 and 80–82: the events before the loop, in source order —
print the wait text, hide the cursor, install the three handlers. -/
def preEvents (sp : Spinner) : List Event :=
  [Event.printWaitText (effectiveWaitText sp ++ " "), Event.hideCursor,
   Event.setHandler SIGINT HandlerVal.spinHandler,
   Event.setHandler SIGTERM HandlerVal.spinHandler,
   Event.setHandler SIGQUIT HandlerVal.spinHandler]

/-- Lines 145–151, the `finally` block: restore the three handlers to their
saved previous values, show the cursor, print a newline. -/
def finallyEvents : List Event :=
  [Event.setHandler SIGINT (HandlerVal.previous SIGINT),
   Event.setHandler SIGTERM (HandlerVal.previous SIGTERM),
   Event.setHandler SIGQUIT (HandlerVal.previous SIGQUIT),
   Event.showCursor, Event.newline]

/-- One call of `Spinner.spin` in the parent, driven by the environment
`env`.  The first component is the returned exit code (`none` when the
environment ran out with the loop still polling, in which case the
`finally` block has not run yet).  The second is the event trace. -/
def spin (sp : Spinner) (env : List Iter) : Option Nat × List Event :=
  match spinLoop sp env ⟨false, none⟩ 0 with
  | LoopResult.done c tr => (some c, preEvents sp ++ tr ++ finallyEvents)
  | LoopResult.fuelOut tr => (none, preEvents sp ++ tr)

/-! ### Helper lemmas -/

theorem LoopResult.prepend_nil (r : LoopResult) : r.prepend [] = r := by
  cases r <;> simp [LoopResult.prepend]

theorem LoopResult.prepend_prepend (p q : List Event) (r : LoopResult) :
    (r.prepend p).prepend q = r.prepend (q ++ p) := by
  cases r <;> simp [LoopResult.prepend]

/-- An iteration in which nothing eventful happens: no signal delivery, the
child still running, and the timeout (when one is configured) not yet
reached. -/
def quietIter (sp : Spinner) (it : Iter) : Prop :=
  it.sigBefore = none ∧ it.poll = none ∧
    ∀ m, sp.max_duration = some m → it.elapsed < m

/-- The events one animation tick emits: the fruitless non-blocking wait,
the timeout check when a maximum duration is configured, then glyph, sleep
and backspace. -/
def tickEvents (sp : Spinner) (it : Iter) (i : Nat) : List Event :=
  [Event.waitNonblock none] ++
    (match sp.max_duration with
     | some _ => [Event.timeoutCheck it.elapsed]
     | none => []) ++
    [Event.glyph (spinnerGlyphs.getD (i % 4) ' '),
     Event.sleepTenths 2, Event.backspace]

/-- A quiet iteration takes the animation branch and leaves the supervisor
state untouched. -/
theorem spinLoop_quietStep (sp : Spinner) (it : Iter) (rest : List Iter)
    (i : Nat) (hsig : it.sigBefore = none) (hpoll : it.poll = none)
    (htime : ∀ m, sp.max_duration = some m → it.elapsed < m) :
    spinLoop sp (it :: rest) ⟨false, none⟩ i =
      (spinLoop sp rest ⟨false, none⟩ (i + 1)).prepend (tickEvents sp it i) := by
  cases hmax : sp.max_duration with
  | none =>
      simp [spinLoop, deliver, hsig, hpoll, hmax, tickEvents]
  | some m =>
      have hlt : ¬ m ≤ it.elapsed := by
        have := htime m hmax
        omega
      simp [spinLoop, deliver, hsig, hpoll, hmax, hlt, tickEvents]

/-- A prefix of quiet iterations only adds animation events in front of
whatever the rest of the environment produces, leaving the supervisor state
untouched. -/
theorem spinLoop_quiet (sp : Spinner) (quiet rest : List Iter) (i : Nat)
    (hq : ∀ j ∈ quiet, quietIter sp j) :
    ∃ p, spinLoop sp (quiet ++ rest) ⟨false, none⟩ i =
      (spinLoop sp rest ⟨false, none⟩ (i + quiet.length)).prepend p := by
  induction quiet generalizing i with
  | nil => exact ⟨[], by simp [LoopResult.prepend_nil]⟩
  | cons it qs ih =>
    obtain ⟨hsig, hpoll, htime⟩ := hq it (by simp)
    obtain ⟨p, hp⟩ := ih (i + 1) (fun j hj => hq j (List.mem_cons_of_mem _ hj))
    refine ⟨tickEvents sp it i ++ p, ?_⟩
    rw [List.cons_append, spinLoop_quietStep sp it (qs ++ rest) i hsig hpoll htime,
      hp, LoopResult.prepend_prepend]
    have harith : i + 1 + qs.length = i + (it :: qs).length := by
      simp
      omega
    rw [harith]

/-- A child that exited normally with code `c < 256` has an "exited" wait
status, and the translation recovers `c`. -/
theorem statusToExit_exitStatusOf (c : Nat) (hc : c < 256) :
    statusToExit (exitStatusOf c) = c := by
  have h1 : exitStatusOf c % 128 = 0 := by
    simp only [exitStatusOf]
    omega
  have h2 : exitStatusOf c / 256 = c % 256 := by
    simp only [exitStatusOf]
    omega
  simp only [statusToExit, WIFEXITED, h1, beq_self_eq_true, if_true, WEXITSTATUS, h2]
  omega

/-- A signaled wait status is not an exited one, and translates to
`128 + WTERMSIG`. -/
theorem statusToExit_signaled (status : Nat) (h : WIFSIGNALED status = true) :
    statusToExit status = 128 + WTERMSIG status := by
  simp only [WIFSIGNALED, Bool.and_eq_true, bne_iff_ne, ne_eq] at h
  simp [statusToExit, WIFEXITED, WIFSIGNALED, h.1, h.2, WTERMSIG]

/-- A wait status that is neither exited nor signaled translates to 128. -/
theorem statusToExit_other (status : Nat)
    (h1 : WIFEXITED status = false) (h2 : WIFSIGNALED status = false) :
    statusToExit status = 128 := by
  simp [statusToExit, h1, h2]

/-- The iteration that reaps the child through the non-blocking wait ends
the loop with the translated status. -/
theorem spinLoop_reapStep (sp : Spinner) (it : Iter) (rest : List Iter)
    (i : Nat) (status : Nat)
    (hsig : it.sigBefore = none) (hpoll : it.poll = some status) :
    spinLoop sp (it :: rest) ⟨false, none⟩ i =
      LoopResult.done (statusToExit status) [Event.waitNonblock (some status)] := by
  simp [spinLoop, hsig, deliver, hpoll]


/-- Reaping the child through the non-blocking wait after a quiet prefix
returns the translated wait status from the full `spin` call. -/
theorem spin_quiet_reap (sp : Spinner) (quiet : List Iter) (it : Iter)
    (status : Nat)
    (hq : ∀ j ∈ quiet, quietIter sp j)
    (hsig : it.sigBefore = none) (hpoll : it.poll = some status) :
    ∃ tr, spin sp (quiet ++ [it]) = (some (statusToExit status), tr) := by
  obtain ⟨p, hp⟩ := spinLoop_quiet sp quiet [it] 0 hq
  rw [spinLoop_reapStep sp it [] _ status hsig hpoll] at hp
  refine ⟨preEvents sp ++ (p ++ [Event.waitNonblock (some status)]) ++ finallyEvents, ?_⟩
  simp [spin, hp, LoopResult.prepend]

/-! ### The claims -/

/-- C1: for every child that exits normally (not signaled, not timed out,
no supervisor interruption) with exit code `C` in 0–255, `spin` returns
exactly `C`.  The run is any number of quiet animation ticks followed by
the iteration whose non-blocking wait reaps the child with the "exited
normally with code C" wait status. -/
theorem c1_normal_exit_code (sp : Spinner) (quiet : List Iter) (it : Iter)
    (C : Nat) (hC : C < 256)
    (hq : ∀ j ∈ quiet, quietIter sp j)
    (hsig : it.sigBefore = none)
    (hpoll : it.poll = some (exitStatusOf C)) :
    ∃ tr, spin sp (quiet ++ [it]) = (some C, tr) := by
  obtain ⟨tr, htr⟩ := spin_quiet_reap sp quiet it _ hq hsig hpoll
  rw [statusToExit_exitStatusOf C hC] at htr
  exact ⟨tr, htr⟩

/-- C1 witness: a child exiting with code 7 after one quiet tick makes
`spin` return 7. -/
theorem c1_normal_exit_code_witness :
    ∃ tr, spin ⟨CommandField.ofList ["true"], some "w", none⟩
      ([⟨none, 0, none, 0, none, 0⟩] ++ [⟨none, 0, some (exitStatusOf 7), 0, none, 0⟩]) =
      (some 7, tr) :=
  c1_normal_exit_code ⟨CommandField.ofList ["true"], some "w", none⟩
    [⟨none, 0, none, 0, none, 0⟩] ⟨none, 0, some (exitStatusOf 7), 0, none, 0⟩ 7
    (by decide) (by simp [quietIter]) rfl rfl

/-- C2: a child terminated by a signal (without supervisor intervention or
timeout) makes `spin` return `128 +` the terminating signal number, and a
wait status that is neither a normal exit nor a signal termination makes it
return 128. -/
theorem c2_signaled_and_unknown (sp : Spinner) (quiet : List Iter)
    (it : Iter) (status : Nat)
    (hq : ∀ j ∈ quiet, quietIter sp j)
    (hsig : it.sigBefore = none)
    (hpoll : it.poll = some status) :
    (WIFSIGNALED status = true →
      ∃ tr, spin sp (quiet ++ [it]) = (some (128 + WTERMSIG status), tr)) ∧
    (WIFEXITED status = false → WIFSIGNALED status = false →
      ∃ tr, spin sp (quiet ++ [it]) = (some 128, tr)) := by
  constructor
  · intro h
    obtain ⟨tr, htr⟩ := spin_quiet_reap sp quiet it status hq hsig hpoll
    rw [statusToExit_signaled status h] at htr
    exact ⟨tr, htr⟩
  · intro h1 h2
    obtain ⟨tr, htr⟩ := spin_quiet_reap sp quiet it status hq hsig hpoll
    rw [statusToExit_other status h1 h2] at htr
    exact ⟨tr, htr⟩

/-- C2 witness: a child killed by SIGTERM (wait status 15) yields 143, and
a stopped-style status (127) yields 128. -/
theorem c2_signaled_and_unknown_witness :
    (∃ tr, spin ⟨CommandField.ofList ["true"], some "w", none⟩
      [⟨none, 0, some 15, 0, none, 0⟩] = (some 143, tr)) ∧
    (∃ tr, spin ⟨CommandField.ofList ["true"], some "w", none⟩
      [⟨none, 0, some 127, 0, none, 0⟩] = (some 128, tr)) :=
  ⟨(c2_signaled_and_unknown ⟨CommandField.ofList ["true"], some "w", none⟩ []
      ⟨none, 0, some 15, 0, none, 0⟩ 15 (by simp) rfl rfl).1 (by decide),
   (c2_signaled_and_unknown ⟨CommandField.ofList ["true"], some "w", none⟩ []
      ⟨none, 0, some 127, 0, none, 0⟩ 127 (by simp) rfl rfl).2 (by decide) (by decide)⟩

/-- C9 counterexample: at a concrete call the first emitted event is the
wait-message print, not the cursor-hide sequence, which comes second —
refuting the claimed hide-then-message order. -/
theorem c9_counterexample :
    (spin ⟨CommandField.ofList ["true"], some "w", none⟩
        [⟨none, 0, some 0, 0, none, 0⟩]).2.head? ≠ some Event.hideCursor ∧
    (spin ⟨CommandField.ofList ["true"], some "w", none⟩
        [⟨none, 0, some 0, 0, none, 0⟩]).2.head? =
      some (Event.printWaitText "w ") ∧
    ((spin ⟨CommandField.ofList ["true"], some "w", none⟩
        [⟨none, 0, some 0, 0, none, 0⟩]).2.drop 1).head? =
      some Event.hideCursor := by
  refine ⟨by decide, rfl, rfl⟩

/-- C9 amended: at the start of every `spin` call the wait message is
printed first and the cursor-hide escape sequence is emitted immediately
after it, in that order (lines 49–50). -/
theorem c9_amended (sp : Spinner) (env : List Iter) :
    ∃ rest, (spin sp env).2 =
      Event.printWaitText (effectiveWaitText sp ++ " ") ::
        Event.hideCursor :: rest := by
  cases h : spinLoop sp env ⟨false, none⟩ 0 with
  | done c tr =>
      refine ⟨[Event.setHandler SIGINT HandlerVal.spinHandler,
        Event.setHandler SIGTERM HandlerVal.spinHandler,
        Event.setHandler SIGQUIT HandlerVal.spinHandler] ++ tr ++ finallyEvents, ?_⟩
      simp [spin, h, preEvents]
  | fuelOut tr =>
      refine ⟨[Event.setHandler SIGINT HandlerVal.spinHandler,
        Event.setHandler SIGTERM HandlerVal.spinHandler,
        Event.setHandler SIGQUIT HandlerVal.spinHandler] ++ tr, ?_⟩
      simp [spin, h, preEvents]

/-- C10: a plain-string `command` is treated as a one-element argv whose
only element is that string, which is then both the executable and the
sole argument of the `execvp` call. -/
theorem c10_string_command (s : String) :
    normalizeArgv (CommandField.ofString s) = [s] ∧
    execTarget (CommandField.ofString s) = some (s, [s]) :=
  ⟨rfl, rfl⟩


/-- Once the timeout fires, the loop escalates: SIGTERM, one second of
grace, a non-blocking re-check, then SIGKILL plus a blocking wait if the
child is still alive; either way the result is 124. -/
theorem spinLoop_timeoutStep (sp : Spinner) (it : Iter) (rest : List Iter)
    (i maxd : Nat)
    (hmax : sp.max_duration = some maxd)
    (hsig : it.sigBefore = none) (hpoll : it.poll = none)
    (helapsed : maxd ≤ it.elapsed) :
    spinLoop sp (it :: rest) ⟨false, none⟩ i =
      LoopResult.done 124
        ([Event.waitNonblock none, Event.timeoutCheck it.elapsed,
          Event.errLine "\nProcess timed out.", Event.killSig SIGTERM,
          Event.sleepTenths 10] ++
         (match it.gracePoll with
          | some s2 => [Event.waitNonblock (some s2)]
          | none => [Event.waitNonblock none, Event.killSig SIGKILL,
              Event.waitBlock it.killWaitStatus])) := by
  cases hg : it.gracePoll <;>
    simp [spinLoop, deliver, hsig, hpoll, hmax, helapsed, hg]

/-- C3: when a maximum duration is configured and the elapsed time reaches
it before the child terminates, `spin` sends SIGTERM, sleeps one second,
re-checks non-blockingly, sends SIGKILL and blocks until reaped if the
child is still alive, and returns 124 whether the SIGTERM (first conjunct)
or the SIGKILL (second conjunct) ended the child. -/
theorem c3_timeout_escalation (sp : Spinner) (quiet : List Iter) (it : Iter)
    (maxd : Nat)
    (hmax : sp.max_duration = some maxd)
    (hq : ∀ j ∈ quiet, quietIter sp j)
    (hsig : it.sigBefore = none) (hpoll : it.poll = none)
    (helapsed : maxd ≤ it.elapsed) :
    (∀ s, it.gracePoll = some s →
      ∃ p, spin sp (quiet ++ [it]) =
        (some 124, p ++ [Event.waitNonblock none, Event.timeoutCheck it.elapsed,
          Event.errLine "\nProcess timed out.", Event.killSig SIGTERM,
          Event.sleepTenths 10, Event.waitNonblock (some s)] ++ finallyEvents)) ∧
    (it.gracePoll = none →
      ∃ p, spin sp (quiet ++ [it]) =
        (some 124, p ++ [Event.waitNonblock none, Event.timeoutCheck it.elapsed,
          Event.errLine "\nProcess timed out.", Event.killSig SIGTERM,
          Event.sleepTenths 10, Event.waitNonblock none, Event.killSig SIGKILL,
          Event.waitBlock it.killWaitStatus] ++ finallyEvents)) := by
  obtain ⟨p, hp⟩ := spinLoop_quiet sp quiet [it] 0 hq
  rw [spinLoop_timeoutStep sp it [] _ maxd hmax hsig hpoll helapsed] at hp
  constructor
  · intro s hs
    rw [hs] at hp
    refine ⟨preEvents sp ++ p, ?_⟩
    simp [spin, hp, LoopResult.prepend]
  · intro hg
    rw [hg] at hp
    refine ⟨preEvents sp ++ p, ?_⟩
    simp [spin, hp, LoopResult.prepend]

/-- C3 witness: with a one-second limit already reached and a child that
survives the grace period, `spin` escalates to SIGKILL, blocks, and
returns 124. -/
theorem c3_timeout_escalation_witness :
    ∃ p, spin ⟨CommandField.ofList ["sleep", "5"], some "w", some 1⟩
        ([] ++ [(⟨none, 0, none, 1, none, 9⟩ : Iter)]) =
      (some 124, p ++ [Event.waitNonblock none, Event.timeoutCheck 1,
        Event.errLine "\nProcess timed out.", Event.killSig SIGTERM,
        Event.sleepTenths 10, Event.waitNonblock none, Event.killSig SIGKILL,
        Event.waitBlock 9] ++ finallyEvents) :=
  (c3_timeout_escalation ⟨CommandField.ofList ["sleep", "5"], some "w", some 1⟩
    [] ⟨none, 0, none, 1, none, 9⟩ 1 rfl (by simp) rfl rfl
    (by decide)).2 rfl

/-- C5: the handler records the delivered signal number and forwards the
same signal to the child; the loop, observing the interruption, performs a
blocking wait and returns `128 + signal`, or 130 when no signal number was
captured.  The last conjunct lifts the signalled run to a full `spin`
call. -/
theorem c5_signal_forward_drain (sp : Spinner) (it : Iter)
    (rest : List Iter) (st : SupState) (i n : Nat)
    (_hn : n = SIGINT ∨ n = SIGTERM ∨ n = SIGQUIT) :
    sig_handler st n = (⟨true, some n⟩, [Event.killSig n]) ∧
    (it.sigBefore = some n →
      spinLoop sp (it :: rest) st i =
        LoopResult.done (128 + n)
          [Event.killSig n, Event.observeInterrupt, Event.sleepTenths 1,
           Event.waitBlock it.blockStatus,
           Event.errLine ("\nInterrupted by " ++ signalName n ++ ".")]) ∧
    (it.sigBefore = none → st = ⟨true, none⟩ →
      spinLoop sp (it :: rest) st i =
        LoopResult.done 130
          [Event.observeInterrupt, Event.sleepTenths 1,
           Event.waitBlock it.blockStatus, Event.errLine "\nInterrupted."]) ∧
    (∀ quiet, (∀ j ∈ quiet, quietIter sp j) → it.sigBefore = some n →
      ∃ tr, spin sp (quiet ++ it :: rest) = (some (128 + n), tr) ∧
        Event.killSig n ∈ tr ∧ Event.waitBlock it.blockStatus ∈ tr) := by
  refine ⟨rfl, ?_, ?_, ?_⟩
  · intro h
    simp [spinLoop, deliver, sig_handler, h]
  · intro h1 h2
    subst h2
    simp [spinLoop, deliver, h1]
  · intro quiet hq hsb
    obtain ⟨p, hp⟩ := spinLoop_quiet sp quiet (it :: rest) 0 hq
    rw [show spinLoop sp (it :: rest) ⟨false, none⟩ (0 + quiet.length) =
      LoopResult.done (128 + n)
        [Event.killSig n, Event.observeInterrupt, Event.sleepTenths 1,
         Event.waitBlock it.blockStatus,
         Event.errLine ("\nInterrupted by " ++ signalName n ++ ".")] from
      by simp [spinLoop, deliver, sig_handler, hsb]] at hp
    refine ⟨preEvents sp ++ (p ++ [Event.killSig n, Event.observeInterrupt,
      Event.sleepTenths 1, Event.waitBlock it.blockStatus,
      Event.errLine ("\nInterrupted by " ++ signalName n ++ ".")]) ++
      finallyEvents, ?_, ?_, ?_⟩
    · simp [spin, hp, LoopResult.prepend]
    · simp
    · simp

/-- C5 witness: SIGINT delivered on the first iteration is recorded,
forwarded, drained with a blocking wait, and `spin` returns 130. -/
theorem c5_signal_forward_drain_witness :
    ∃ tr, spin ⟨CommandField.ofList ["true"], some "w", none⟩
        ([] ++ (⟨some 2, 0, none, 0, none, 0⟩ : Iter) :: []) = (some 130, tr) ∧
      Event.killSig 2 ∈ tr ∧ Event.waitBlock 0 ∈ tr :=
  (c5_signal_forward_drain ⟨CommandField.ofList ["true"], some "w", none⟩
    ⟨some 2, 0, none, 0, none, 0⟩ [] ⟨false, none⟩ 0 2
    (Or.inl rfl)).2.2.2 [] (by simp) rfl

/-- C6: a failed `execvp` is reported on stderr inside the child, which
terminates immediately with `_exit(127)`; the supervisor then reaps a
normally-exited child with code 127, so `spin` returns 127. -/
theorem c6_exec_failure (m : String) (sp : Spinner) (quiet : List Iter)
    (it : Iter)
    (hq : ∀ j ∈ quiet, quietIter sp j)
    (hsig : it.sigBefore = none)
    (hpoll : it.poll = some (exitStatusOf 127)) :
    childRun (ExecOutcome.failedWith m) = some (127, "\nexec failed: " ++ m) ∧
    ∃ tr, spin sp (quiet ++ [it]) = (some 127, tr) := by
  refine ⟨rfl, ?_⟩
  obtain ⟨tr, htr⟩ := spin_quiet_reap sp quiet it _ hq hsig hpoll
  rw [statusToExit_exitStatusOf 127 (by decide)] at htr
  exact ⟨tr, htr⟩

/-- C6 witness: a child whose exec failed exits 127 and `spin` reports
127. -/
theorem c6_exec_failure_witness :
    childRun (ExecOutcome.failedWith "no such file") =
      some (127, "\nexec failed: " ++ "no such file") ∧
    ∃ tr, spin ⟨CommandField.ofList ["nosuch"], some "w", none⟩
      ([] ++ [(⟨none, 0, some (exitStatusOf 127), 0, none, 0⟩ : Iter)]) =
      (some 127, tr) :=
  c6_exec_failure "no such file" ⟨CommandField.ofList ["nosuch"], some "w", none⟩
    [] ⟨none, 0, some (exitStatusOf 127), 0, none, 0⟩ (by simp) rfl rfl


/-- An event that reaps the child: a blocking wait, or a non-blocking wait
that returned a terminated child. -/
def isReap : Event → Bool
  | Event.waitBlock _ => true
  | Event.waitNonblock (some _) => true
  | _ => false

/-- Spinner-animation output and timeout checks, the activities that must
stop once an interruption is observed. -/
def isAnim : Event → Bool
  | Event.glyph _ => true
  | Event.timeoutCheck _ => true
  | _ => false

/-- Everything after any occurrence of `observeInterrupt` in the trace is
free of animation output and timeout checks. -/
def cleanAfterObserve : List Event → Bool
  | [] => true
  | e :: rest =>
      (if e = Event.observeInterrupt then rest.all (fun x => !isAnim x)
       else true) && cleanAfterObserve rest

theorem cleanAfterObserve_append_of_not_mem (l1 l2 : List Event)
    (h1 : Event.observeInterrupt ∉ l1) (h2 : cleanAfterObserve l2 = true) :
    cleanAfterObserve (l1 ++ l2) = true := by
  induction l1 with
  | nil => simpa using h2
  | cons e rest ih =>
      have he : ¬ (e = Event.observeInterrupt) := fun h => h1 (by simp [h])
      have hrest : Event.observeInterrupt ∉ rest :=
        fun h => h1 (List.mem_cons_of_mem _ h)
      simp [cleanAfterObserve, he, ih hrest]

theorem cleanAfterObserve_append_all (l1 l2 : List Event)
    (h1 : cleanAfterObserve l1 = true) (h2 : cleanAfterObserve l2 = true)
    (h3 : l2.all (fun x => !isAnim x) = true) :
    cleanAfterObserve (l1 ++ l2) = true := by
  induction l1 with
  | nil => simpa using h2
  | cons e rest ih =>
      simp only [cleanAfterObserve, Bool.and_eq_true] at h1
      by_cases he : e = Event.observeInterrupt
      · subst he
        have hall : rest.all (fun x => !isAnim x) = true := by
          simpa using h1.1
        simp [cleanAfterObserve, List.all_append, hall, h3, ih h1.2]
      · simp [cleanAfterObserve, he, ih h1.2]

theorem cleanAfterObserve_split (a b : List Event)
    (hc : cleanAfterObserve (a ++ Event.observeInterrupt :: b) = true) :
    ∀ e ∈ b, isAnim e = false := by
  induction a with
  | nil =>
      have hall : b.all (fun x => !isAnim x) = true := by
        simp only [List.nil_append, cleanAfterObserve, Bool.and_eq_true] at hc
        simpa using hc.1
      intro e he
      simpa using List.all_eq_true.mp hall e he
  | cons x xs ih =>
      simp only [List.cons_append, cleanAfterObserve, Bool.and_eq_true] at hc
      exact ih hc.2

theorem not_anim_cases (e : Event) (h : isAnim e = false) :
    (∀ ch, e ≠ Event.glyph ch) ∧ ∀ t, e ≠ Event.timeoutCheck t := by
  constructor <;> intro x hx <;> subst hx <;> simp [isAnim] at h

/-- Every terminated loop run reaps the child somewhere in its trace, and
its trace is clean after every observed interruption. -/
theorem spinLoop_done_shape (sp : Spinner) (env : List Iter) (st : SupState)
    (i c : Nat) (tr : List Event)
    (h : spinLoop sp env st i = LoopResult.done c tr) :
    (∃ e ∈ tr, isReap e = true) ∧ cleanAfterObserve tr = true := by
  induction env generalizing st i c tr with
  | nil => simp [spinLoop] at h
  | cons it rest ih =>
      rw [spinLoop] at h
      cases hsb : it.sigBefore with
      | some n =>
          simp only [hsb, deliver, sig_handler, LoopResult.done.injEq,
            if_true] at h
          obtain ⟨rfl, rfl⟩ := h
          refine ⟨⟨Event.waitBlock it.blockStatus, by simp, rfl⟩, ?_⟩
          simp [cleanAfterObserve, isAnim]
      | none =>
          simp only [hsb, deliver] at h
          cases hI : st.interrupted with
          | true =>
              cases hsr : st.signal_received with
              | some s =>
                  simp only [hI, hsr, if_true, LoopResult.done.injEq] at h
                  obtain ⟨rfl, rfl⟩ := h
                  refine ⟨⟨Event.waitBlock it.blockStatus, by simp, rfl⟩, ?_⟩
                  simp [cleanAfterObserve, isAnim]
              | none =>
                  simp only [hI, hsr, if_true, LoopResult.done.injEq] at h
                  obtain ⟨rfl, rfl⟩ := h
                  refine ⟨⟨Event.waitBlock it.blockStatus, by simp, rfl⟩, ?_⟩
                  simp [cleanAfterObserve, isAnim]
          | false =>
              simp only [hI, Bool.false_eq_true, if_false] at h
              cases hpoll : it.poll with
              | some status =>
                  simp only [hpoll, LoopResult.done.injEq] at h
                  obtain ⟨rfl, rfl⟩ := h
                  refine ⟨⟨Event.waitNonblock (some status), by simp, rfl⟩, ?_⟩
                  simp [cleanAfterObserve]
              | none =>
                  simp only [hpoll] at h
                  cases hmax : sp.max_duration with
                  | some maxd =>
                      simp only [hmax] at h
                      by_cases ht : maxd ≤ it.elapsed
                      · rw [if_pos ht] at h
                        cases hg : it.gracePoll with
                        | some s2 =>
                            simp only [hg, LoopResult.done.injEq] at h
                            obtain ⟨rfl, rfl⟩ := h
                            refine ⟨⟨Event.waitNonblock (some s2), by simp, rfl⟩, ?_⟩
                            simp [cleanAfterObserve]
                        | none =>
                            simp only [hg, LoopResult.done.injEq] at h
                            obtain ⟨rfl, rfl⟩ := h
                            refine ⟨⟨Event.waitBlock it.killWaitStatus, by simp, rfl⟩, ?_⟩
                            simp [cleanAfterObserve]
                      · rw [if_neg ht] at h
                        cases hrec : spinLoop sp rest st (i + 1) with
                        | fuelOut tr2 =>
                            rw [hrec] at h
                            simp [LoopResult.prepend] at h
                        | done c2 tr2 =>
                            rw [hrec] at h
                            simp only [LoopResult.prepend,
                              LoopResult.done.injEq] at h
                            obtain ⟨rfl, rfl⟩ := h
                            obtain ⟨⟨e, he, hre⟩, hcl⟩ := ih st (i + 1) c2 tr2 hrec
                            refine ⟨⟨e, by simp [he], hre⟩, ?_⟩
                            exact cleanAfterObserve_append_of_not_mem _ _
                              (by simp) hcl
                  | none =>
                      simp only [hmax] at h
                      cases hrec : spinLoop sp rest st (i + 1) with
                      | fuelOut tr2 =>
                          rw [hrec] at h
                          simp [LoopResult.prepend] at h
                      | done c2 tr2 =>
                          rw [hrec] at h
                          simp only [LoopResult.prepend,
                            LoopResult.done.injEq] at h
                          obtain ⟨rfl, rfl⟩ := h
                          obtain ⟨⟨e, he, hre⟩, hcl⟩ := ih st (i + 1) c2 tr2 hrec
                          refine ⟨⟨e, by simp [he], hre⟩, ?_⟩
                          exact cleanAfterObserve_append_of_not_mem _ _
                            (by simp) hcl


/-- C4: on every exit path of `spin` (normal completion, signal
interruption, timeout), the trace contains a reaping wait — the child is
waited on before `spin` returns. -/
theorem c4_child_always_reaped (sp : Spinner) (env : List Iter) (c : Nat)
    (tr : List Event) (h : spin sp env = (some c, tr)) :
    ∃ e ∈ tr, isReap e = true := by
  unfold spin at h
  cases hl : spinLoop sp env ⟨false, none⟩ 0 with
  | done c2 tr2 =>
      rw [hl] at h
      simp only [Prod.mk.injEq, Option.some.injEq] at h
      obtain ⟨rfl, rfl⟩ := h
      obtain ⟨⟨e, he, hre⟩, _⟩ :=
        spinLoop_done_shape sp env ⟨false, none⟩ 0 c2 tr2 hl
      exact ⟨e, by simp [he], hre⟩
  | fuelOut tr2 =>
      rw [hl] at h
      simp at h

/-- C4 witness: the normal-completion path reaps the child. -/
theorem c4_child_always_reaped_witness :
    ∃ e ∈ (spin ⟨CommandField.ofList ["true"], some "w", none⟩
      [⟨none, 0, some 0, 0, none, 0⟩]).2, isReap e = true :=
  c4_child_always_reaped ⟨CommandField.ofList ["true"], some "w", none⟩
    [⟨none, 0, some 0, 0, none, 0⟩] 0 _ (by rfl)

/-- C7: on every exit path of `spin` that returns, the trace ends by
restoring the three signal handlers to their previous values and making
the cursor visible again (then moving to a clean line). -/
theorem c7_restore_handlers_and_cursor (sp : Spinner) (env : List Iter)
    (c : Nat) (tr : List Event) (h : spin sp env = (some c, tr)) :
    ∃ p, tr = p ++
      [Event.setHandler SIGINT (HandlerVal.previous SIGINT),
       Event.setHandler SIGTERM (HandlerVal.previous SIGTERM),
       Event.setHandler SIGQUIT (HandlerVal.previous SIGQUIT),
       Event.showCursor, Event.newline] := by
  unfold spin at h
  cases hl : spinLoop sp env ⟨false, none⟩ 0 with
  | done c2 tr2 =>
      rw [hl] at h
      simp only [Prod.mk.injEq, Option.some.injEq] at h
      obtain ⟨rfl, rfl⟩ := h
      exact ⟨preEvents sp ++ tr2, by simp [finallyEvents]⟩
  | fuelOut tr2 =>
      rw [hl] at h
      simp at h

/-- C7 witness: the timeout path also restores handlers and cursor. -/
theorem c7_restore_handlers_and_cursor_witness :
    ∃ p, (spin ⟨CommandField.ofList ["sleep", "5"], some "w", some 1⟩
      [⟨none, 0, none, 1, none, 0⟩]).2 = p ++
      [Event.setHandler SIGINT (HandlerVal.previous SIGINT),
       Event.setHandler SIGTERM (HandlerVal.previous SIGTERM),
       Event.setHandler SIGQUIT (HandlerVal.previous SIGQUIT),
       Event.showCursor, Event.newline] :=
  c7_restore_handlers_and_cursor ⟨CommandField.ofList ["sleep", "5"], some "w", some 1⟩
    [⟨none, 0, none, 1, none, 0⟩] 124 _ (by rfl)

/-- C8: once the polling loop observes a recorded interruption, nothing
after that observation in the trace is a spinner glyph or a timeout
check. -/
theorem c8_no_anim_after_interrupt (sp : Spinner) (env : List Iter)
    (c : Nat) (tr a b : List Event)
    (h : spin sp env = (some c, tr))
    (hsplit : tr = a ++ Event.observeInterrupt :: b) :
    ∀ e ∈ b, (∀ ch, e ≠ Event.glyph ch) ∧ ∀ t, e ≠ Event.timeoutCheck t := by
  have hclean : cleanAfterObserve tr = true := by
    unfold spin at h
    cases hl : spinLoop sp env ⟨false, none⟩ 0 with
    | done c2 tr2 =>
        rw [hl] at h
        simp only [Prod.mk.injEq, Option.some.injEq] at h
        obtain ⟨rfl, rfl⟩ := h
        obtain ⟨_, hcl⟩ :=
          spinLoop_done_shape sp env ⟨false, none⟩ 0 c2 tr2 hl
        have h1 : cleanAfterObserve (tr2 ++ finallyEvents) = true :=
          cleanAfterObserve_append_all tr2 finallyEvents hcl
            (by decide) (by decide)
        rw [List.append_assoc]
        exact cleanAfterObserve_append_of_not_mem (preEvents sp)
          (tr2 ++ finallyEvents) (by simp [preEvents]) h1
    | fuelOut tr2 =>
        rw [hl] at h
        simp at h
  subst hsplit
  intro e he
  exact not_anim_cases e (cleanAfterObserve_split a b hclean e he)

/-- C8 witness: in a SIGINT-interrupted run, the blocking wait that
follows the observed interruption is neither a spinner glyph nor a timeout
check. -/
theorem c8_no_anim_after_interrupt_witness :
    Event.waitBlock 0 ≠ Event.glyph '-' ∧
      Event.waitBlock 0 ≠ Event.timeoutCheck 0 :=
  ⟨(c8_no_anim_after_interrupt ⟨CommandField.ofList ["true"], some "w", none⟩
      [⟨some 2, 0, none, 0, none, 0⟩] 130 _
      [Event.printWaitText "w ", Event.hideCursor,
       Event.setHandler SIGINT HandlerVal.spinHandler,
       Event.setHandler SIGTERM HandlerVal.spinHandler,
       Event.setHandler SIGQUIT HandlerVal.spinHandler, Event.killSig 2]
      [Event.sleepTenths 1, Event.waitBlock 0,
       Event.errLine "\nInterrupted by SIGINT.",
       Event.setHandler SIGINT (HandlerVal.previous SIGINT),
       Event.setHandler SIGTERM (HandlerVal.previous SIGTERM),
       Event.setHandler SIGQUIT (HandlerVal.previous SIGQUIT),
       Event.showCursor, Event.newline]
      (by rfl) (by rfl) (Event.waitBlock 0) (by decide)).1 '-',
   (c8_no_anim_after_interrupt ⟨CommandField.ofList ["true"], some "w", none⟩
      [⟨some 2, 0, none, 0, none, 0⟩] 130 _
      [Event.printWaitText "w ", Event.hideCursor,
       Event.setHandler SIGINT HandlerVal.spinHandler,
       Event.setHandler SIGTERM HandlerVal.spinHandler,
       Event.setHandler SIGQUIT HandlerVal.spinHandler, Event.killSig 2]
      [Event.sleepTenths 1, Event.waitBlock 0,
       Event.errLine "\nInterrupted by SIGINT.",
       Event.setHandler SIGINT (HandlerVal.previous SIGINT),
       Event.setHandler SIGTERM (HandlerVal.previous SIGTERM),
       Event.setHandler SIGQUIT (HandlerVal.previous SIGQUIT),
       Event.showCursor, Event.newline]
      (by rfl) (by rfl) (Event.waitBlock 0) (by decide)).2 0⟩

end SpinnerPy
